import Mathlib

/-!
Verification of the Conway's Game of Life engine in `conway.py`.

The grid is a numpy 2-D integer array; we embed it as a structure holding the
two axis lengths (`rows` = axis 0, `cols` = axis 1) together with a total cell
function.  Cells outside the bounds are irrelevant: every statement quantifies
only over in-bounds indices.
-/

/-- A 2-D integer grid, the shallow embedding of a numpy `ndarray` of ints.
`rows` is the length of axis 0 and `cols` the length of axis 1;
`cell i j` is the entry at index `[i, j]`. -/
structure Grid where
  rows : ℕ
  cols : ℕ
  cell : ℕ → ℕ → ℤ

/-- The grid holds only the values 0 and 1 inside its bounds
(the spec's "logically boolean" invariant). -/
def Grid.binary (g : Grid) : Prop :=
  ∀ i < g.rows, ∀ j < g.cols, g.cell i j = 0 ∨ g.cell i j = 1

instance (g : Grid) : Decidable g.binary := by
  unfold Grid.binary; infer_instance

/-- The loop bounds `range(-1, 2)` of `update_field_slow`. -/
def nbrRange : List ℤ := [-1, 0, 1]

/-- Embeds the neighbor-counting double loop of `Conway.update_field_slow`:
for `i, j in range(-1, 2)²`, skip `(0,0)`, skip out-of-bounds positions,
and accumulate the neighboring cell values of the pre-update grid. -/
def livingNeighborsSlow (g : Grid) (col row : ℕ) : ℤ :=
  nbrRange.foldl (fun acc i =>
    nbrRange.foldl (fun acc2 j =>
      if (¬(i = 0 ∧ j = 0)) ∧ 0 ≤ (col : ℤ) + i ∧ (col : ℤ) + i < (g.rows : ℤ) ∧
          0 ≤ (row : ℤ) + j ∧ (row : ℤ) + j < (g.cols : ℤ) then
        acc2 + g.cell ((col : ℤ) + i).toNat ((row : ℤ) + j).toNat
      else acc2) acc) 0

/-- Embeds `Conway.update_field_slow`: each cell of the new grid is computed
from the pre-update grid (`new_field` starts as a copy, reads go to
`self.current_field`).  A nonzero cell is "living" (Python truthiness). -/
def update_field_slow (g : Grid) : Grid :=
  { rows := g.rows, cols := g.cols,
    cell := fun col row =>
      let n := livingNeighborsSlow g col row
      if g.cell col row ≠ 0 then
        if n < 2 ∨ n > 3 then 0 else g.cell col row
      else
        if n = 3 then 1 else g.cell col row }

/-- The `rolling` offset list of `Conway.update_field_fast`. -/
def rolling : List (ℤ × ℤ) :=
  [(0, 1), (1, 1), (1, 0), (1, -1), (-1, 1), (-1, 0), (-1, -1), (0, -1)]

/-- Index arithmetic of `np.roll(x, k, axis)`: entry `i` of the rolled array
is entry `(i - k) mod n` of the original. -/
def rollIndex (n : ℕ) (i : ℕ) (k : ℤ) : ℕ :=
  (((i : ℤ) - k) % (n : ℤ)).toNat

/-- Embeds `living_neighbors = sum(roll_arr)` of `Conway.update_field_fast`:
the sum of the eight circularly shifted copies of the grid, at `[i, j]`. -/
def livingNeighborsFast (g : Grid) (i j : ℕ) : ℤ :=
  (rolling.map (fun r => g.cell (rollIndex g.rows i r.1) (rollIndex g.cols j r.2))).sum

/-- Embeds `Conway.update_field_fast` with an explicit mask argument:
`deading` cells are set to 0, `living` cells to 1 (both computed from the
pre-update grid; the two index sets are disjoint), and finally every cell
where the mask is 0 is forced to 0. -/
def update_field_fast_mask (g : Grid) (mask : ℕ → ℕ → ℤ) : Grid :=
  { rows := g.rows, cols := g.cols,
    cell := fun i j =>
      let n := livingNeighborsFast g i j
      let v := if g.cell i j ≠ 0 ∧ (n < 2 ∨ n > 3) then 0
               else if g.cell i j = 0 ∧ n = 3 then 1
               else g.cell i j
      if mask i j = 0 then 0 else v }

/-- The mask built by `Conway.__init__`: `np.zeros_like` then
`mask[1:-1, 1:-1] = 1`, i.e. 1 exactly on the strict interior. -/
def standardMask (R C : ℕ) (i j : ℕ) : ℤ :=
  if 1 ≤ i ∧ i + 1 < R ∧ 1 ≤ j ∧ j + 1 < C then 1 else 0

/-- `Conway.update_field_fast` as called on a freshly constructed instance,
whose mask is `standardMask` for the grid's own dimensions. -/
def update_field_fast (g : Grid) : Grid :=
  update_field_fast_mask g (standardMask g.rows g.cols)


/-- The eight neighbor offsets (including diagonals) of a cell. -/
def adjacentOffsets : List (ℤ × ℤ) :=
  [(-1, -1), (-1, 0), (-1, 1), (0, -1), (0, 1), (1, -1), (1, 0), (1, 1)]

/-- Follows the spec's words, independently of the implementation: the number
of live cells among the up-to-8 adjacent positions (including diagonals) that
lie inside grid bounds; out-of-bounds positions contribute zero and there is
no wraparound. -/
def specLiveNeighbors (g : Grid) (i j : ℕ) : ℕ :=
  (adjacentOffsets.filter (fun d =>
    decide (0 ≤ (i : ℤ) + d.1 ∧ (i : ℤ) + d.1 < (g.rows : ℤ) ∧
      0 ≤ (j : ℤ) + d.2 ∧ (j : ℤ) + d.2 < (g.cols : ℤ) ∧
      g.cell ((i : ℤ) + d.1).toNat ((j : ℤ) + d.2).toNat = 1))).length

/-- The state of a `Conway` instance: the fields set by `ConwayBase.__init__`
(`start_field`, `current_field`; `size` and `shape` are derived and omitted)
plus the fields set by `Conway.__init__` (`current_view`, `mask`).
The trail buffer `current_view` holds numpy floats, embedded as rationals. -/
structure Conway where
  start_field : Grid
  current_field : Grid
  current_view : ℕ → ℕ → ℚ
  mask : ℕ → ℕ → ℤ

/-- Embeds `Conway.__init__(start_field, border, fade, gauss_sigma)`:
`super().__init__` stores the start field and copies it into
`current_field`; then `current_view` is set to all zeros and `mask` to the
interior mask.  The `border`, `fade` and `gauss_sigma` parameters are
accepted and, exactly as in the source, never read.  The constructor
performs no validation and has no failure path. -/
def Conway.init (start : Grid) (border : Bool) (fade : ℚ × ℚ × ℚ)
    (gauss_sigma : ℚ × ℚ × ℚ) : Conway :=
  { start_field := start,
    current_field := start,
    current_view := fun _ _ => 0,
    mask := fun i j => standardMask start.rows start.cols i j }

/-- Embeds `ConwayBase.reset_field`: `current_field` becomes a fresh copy of
`start_field`; nothing else is touched. -/
def Conway.reset_field (s : Conway) : Conway :=
  { s with current_field := s.start_field }

/-- Embeds `np.sum` over the grid's entries. -/
def gridSum (g : Grid) : ℤ :=
  ((List.range g.rows).map (fun i =>
    ((List.range g.cols).map (fun j => g.cell i j)).sum)).sum

/-- Embeds the `ConwayBase.is_empty` property: `np.sum(current_field) == 0`. -/
def Conway.is_empty (s : Conway) : Bool :=
  gridSum s.current_field == 0

/-- Embeds `Conway.update_field`: one call to `update_field_fast`, which
mutates `current_field` in place using the instance's stored mask. -/
def Conway.update_field (s : Conway) : Conway :=
  { s with current_field := update_field_fast_mask s.current_field s.mask }

/-- Embeds `Conway.show_field`: the trail buffer is replaced by
`0.05 * current_view + 1 * current_field` and the returned image is
`0xFF0000 *` the new buffer.  Returns the new state and the image. -/
def Conway.show_field (s : Conway) : Conway × (ℕ → ℕ → ℚ) :=
  let view := fun i j =>
    (0.05 : ℚ) * s.current_view i j + 1 * (s.current_field.cell i j : ℚ)
  ({ s with current_view := view }, fun i j => (0xFF0000 : ℚ) * view i j)

/-- A call made by an external driver: either `update_field` or `show_field`. -/
inductive ConwayOp where
  | update : ConwayOp
  | show_field : ConwayOp

/-- Run one driver call, collecting the image `show_field` returns. -/
def runOp (s : Conway) : ConwayOp → Conway × List (ℕ → ℕ → ℚ)
  | ConwayOp.update => (s.update_field, [])
  | ConwayOp.show_field => ((s.show_field).1, [(s.show_field).2])

/-- Run a sequence of driver calls, collecting every returned image. -/
def runOps (s : Conway) : List ConwayOp → Conway × List (ℕ → ℕ → ℚ)
  | [] => (s, [])
  | op :: ops =>
    let r := runOp s op
    let rest := runOps r.1 ops
    (rest.1, r.2 ++ rest.2)

/-- The 5×5 starting grid of the spec's end-to-end example: all dead except
cells (2,1), (2,2), (2,3) — a horizontal blinker centered in the grid. -/
def blinker5 : Grid :=
  { rows := 5, cols := 5,
    cell := fun i j => if i = 2 ∧ (j = 1 ∨ j = 2 ∨ j = 3) then 1 else 0 }

/-- A `Conway` instance constructed on the blinker grid with the source's
default constructor arguments. -/
def blinkerState : Conway :=
  Conway.init blinker5 true (1, 1, 1) (0, 0, 0)

/-- A 0×0 grid: an empty starting configuration. -/
def emptyGrid : Grid := { rows := 0, cols := 0, cell := fun _ _ => 0 }

/-- A 2×5 grid of all-alive cells; its height (axis 0) is at most 2. -/
def flatGrid : Grid := { rows := 2, cols := 5, cell := fun _ _ => 1 }

/-- A 3×3 grid with every cell alive. -/
def fullGrid3 : Grid := { rows := 3, cols := 3, cell := fun _ _ => 1 }
/-- Rolling by `k ∈ {-1, 0, 1}` at an index `i` with `0 ≤ i - k < n` does not
wrap: it is plain index arithmetic. -/
lemma rollIndex_eq (n : ℕ) (i : ℕ) (k : ℤ) (h0 : 0 ≤ (i : ℤ) - k)
    (h1 : (i : ℤ) - k < (n : ℤ)) :
    rollIndex n i k = ((i : ℤ) - k).toNat := by
  unfold rollIndex
  rw [Int.emod_eq_of_lt h0 h1]

/-- A guarded accumulation step rewritten so that the accumulator appears
only once; avoids exponential blowup when unfolding folds. -/
lemma ite_add_form (c : Prop) [Decidable c] (a x : ℤ) :
    (if c then a + x else a) = a + (if c then x else 0) := by
  split_ifs <;> simp

/-- The slow neighbor count at a strictly interior cell, written out as the
sum of the eight neighboring cells. -/
lemma livingNeighborsSlow_interior (g : Grid) (i j : ℕ)
    (h1 : 1 ≤ i) (h2 : i + 1 < g.rows) (h3 : 1 ≤ j) (h4 : j + 1 < g.cols) :
    livingNeighborsSlow g i j =
      g.cell (i-1) (j-1) + g.cell (i-1) j + g.cell (i-1) (j+1) +
      g.cell i (j-1) + g.cell i (j+1) +
      g.cell (i+1) (j-1) + g.cell (i+1) j + g.cell (i+1) (j+1) := by
  have e1 : ((i : ℤ) + -1).toNat = i - 1 := by omega
  have e2 : ((i : ℤ) + 0).toNat = i := by omega
  have e3 : ((i : ℤ) + 1).toNat = i + 1 := by omega
  have f1 : ((j : ℤ) + -1).toNat = j - 1 := by omega
  have f2 : ((j : ℤ) + 0).toNat = j := by omega
  have f3 : ((j : ℤ) + 1).toNat = j + 1 := by omega
  have H1 : (¬((-1 : ℤ) = 0 ∧ (-1 : ℤ) = 0)) ∧ 0 ≤ (i : ℤ) + -1 ∧ (i : ℤ) + -1 < (g.rows : ℤ) ∧
      0 ≤ (j : ℤ) + -1 ∧ (j : ℤ) + -1 < (g.cols : ℤ) :=
    ⟨by decide, by omega, by omega, by omega, by omega⟩
  have H2 : (¬((-1 : ℤ) = 0 ∧ True)) ∧ 0 ≤ (i : ℤ) + -1 ∧ (i : ℤ) + -1 < (g.rows : ℤ) ∧
      0 ≤ (j : ℤ) + 0 ∧ (j : ℤ) + 0 < (g.cols : ℤ) :=
    ⟨by decide, by omega, by omega, by omega, by omega⟩
  have H3 : (¬((-1 : ℤ) = 0 ∧ (1 : ℤ) = 0)) ∧ 0 ≤ (i : ℤ) + -1 ∧ (i : ℤ) + -1 < (g.rows : ℤ) ∧
      0 ≤ (j : ℤ) + 1 ∧ (j : ℤ) + 1 < (g.cols : ℤ) :=
    ⟨by decide, by omega, by omega, by omega, by omega⟩
  have H4 : (¬(True ∧ (-1 : ℤ) = 0)) ∧ 0 ≤ (i : ℤ) + 0 ∧ (i : ℤ) + 0 < (g.rows : ℤ) ∧
      0 ≤ (j : ℤ) + -1 ∧ (j : ℤ) + -1 < (g.cols : ℤ) :=
    ⟨by decide, by omega, by omega, by omega, by omega⟩
  have H5 : ¬((¬(True ∧ True)) ∧ 0 ≤ (i : ℤ) + 0 ∧ (i : ℤ) + 0 < (g.rows : ℤ) ∧
      0 ≤ (j : ℤ) + 0 ∧ (j : ℤ) + 0 < (g.cols : ℤ)) :=
    fun h => h.1 ⟨trivial, trivial⟩
  have H6 : (¬(True ∧ (1 : ℤ) = 0)) ∧ 0 ≤ (i : ℤ) + 0 ∧ (i : ℤ) + 0 < (g.rows : ℤ) ∧
      0 ≤ (j : ℤ) + 1 ∧ (j : ℤ) + 1 < (g.cols : ℤ) :=
    ⟨by decide, by omega, by omega, by omega, by omega⟩
  have H7 : (¬((1 : ℤ) = 0 ∧ (-1 : ℤ) = 0)) ∧ 0 ≤ (i : ℤ) + 1 ∧ (i : ℤ) + 1 < (g.rows : ℤ) ∧
      0 ≤ (j : ℤ) + -1 ∧ (j : ℤ) + -1 < (g.cols : ℤ) :=
    ⟨by decide, by omega, by omega, by omega, by omega⟩
  have H8 : (¬((1 : ℤ) = 0 ∧ True)) ∧ 0 ≤ (i : ℤ) + 1 ∧ (i : ℤ) + 1 < (g.rows : ℤ) ∧
      0 ≤ (j : ℤ) + 0 ∧ (j : ℤ) + 0 < (g.cols : ℤ) :=
    ⟨by decide, by omega, by omega, by omega, by omega⟩
  have H9 : (¬((1 : ℤ) = 0 ∧ (1 : ℤ) = 0)) ∧ 0 ≤ (i : ℤ) + 1 ∧ (i : ℤ) + 1 < (g.rows : ℤ) ∧
      0 ≤ (j : ℤ) + 1 ∧ (j : ℤ) + 1 < (g.cols : ℤ) :=
    ⟨by decide, by omega, by omega, by omega, by omega⟩
  simp only [livingNeighborsSlow, nbrRange, ite_add_form, List.foldl_cons, List.foldl_nil,
    e1, e2, e3, f1, f2, f3]
  rw [if_pos H1, if_pos H2, if_pos H3, if_pos H4, if_neg H5, if_pos H6, if_pos H7,
    if_pos H8, if_pos H9]
  ring

/-- The fast (rolled-sum) neighbor count at a strictly interior cell equals
the same sum of the eight neighboring cells: no roll wraps there. -/
lemma livingNeighborsFast_interior (g : Grid) (i j : ℕ)
    (h1 : 1 ≤ i) (h2 : i + 1 < g.rows) (h3 : 1 ≤ j) (h4 : j + 1 < g.cols) :
    livingNeighborsFast g i j =
      g.cell (i-1) (j-1) + g.cell (i-1) j + g.cell (i-1) (j+1) +
      g.cell i (j-1) + g.cell i (j+1) +
      g.cell (i+1) (j-1) + g.cell (i+1) j + g.cell (i+1) (j+1) := by
  have r1 : rollIndex g.rows i 1 = i - 1 := by
    rw [rollIndex_eq g.rows i 1 (by omega) (by omega)]; omega
  have r0 : rollIndex g.rows i 0 = i := by
    rw [rollIndex_eq g.rows i 0 (by omega) (by omega)]; omega
  have rm : rollIndex g.rows i (-1) = i + 1 := by
    rw [rollIndex_eq g.rows i (-1) (by omega) (by omega)]; omega
  have c1 : rollIndex g.cols j 1 = j - 1 := by
    rw [rollIndex_eq g.cols j 1 (by omega) (by omega)]; omega
  have c0 : rollIndex g.cols j 0 = j := by
    rw [rollIndex_eq g.cols j 0 (by omega) (by omega)]; omega
  have cm : rollIndex g.cols j (-1) = j + 1 := by
    rw [rollIndex_eq g.cols j (-1) (by omega) (by omega)]; omega
  simp only [livingNeighborsFast, rolling, List.map_cons, List.map_nil, List.sum_cons,
    List.sum_nil, r1, r0, rm, c1, c0, cm]
  ring

/-- The nested neighbor loop of the slow update, flattened to a single fold
over the eight offsets: the self position `(0,0)` contributes nothing. -/
lemma livingNeighborsSlow_flat (g : Grid) (i j : ℕ) :
    livingNeighborsSlow g i j =
      adjacentOffsets.foldl (fun acc d =>
        if 0 ≤ (i : ℤ) + d.1 ∧ (i : ℤ) + d.1 < (g.rows : ℤ) ∧
            0 ≤ (j : ℤ) + d.2 ∧ (j : ℤ) + d.2 < (g.cols : ℤ) then
          acc + g.cell ((i : ℤ) + d.1).toNat ((j : ℤ) + d.2).toNat
        else acc) 0 := by
  have t1 : ((-1 : ℤ) = 0) = False := by simp
  have t2 : ((1 : ℤ) = 0) = False := by simp
  simp only [livingNeighborsSlow, adjacentOffsets, nbrRange, ite_add_form,
    List.foldl_cons, List.foldl_nil, t1, t2, false_and, and_false, and_true, true_and,
    and_self, not_false_iff, not_true, false_or, if_false, if_true]
  ring

/-- `update_field` never changes the stored mask. -/
lemma iterate_update_mask (s : Conway) (n : ℕ) :
    (Conway.update_field^[n] s).mask = s.mask := by
  induction n with
  | zero => rfl
  | succ m ih => rw [Function.iterate_succ_apply', ← ih]; rfl

/-- C5: on the 5×5 centered horizontal blinker, one `update_field` call
yields exactly the vertical blinker (1,2), (2,2), (3,2), and a second call
returns exactly the horizontal blinker (2,1), (2,2), (2,3). -/
theorem blinker_oscillates :
    (∀ i < 5, ∀ j < 5,
      (blinkerState.update_field).current_field.cell i j =
        (if j = 2 ∧ (i = 1 ∨ i = 2 ∨ i = 3) then 1 else 0)) ∧
    (∀ i < 5, ∀ j < 5,
      (blinkerState.update_field.update_field).current_field.cell i j =
        (if i = 2 ∧ (j = 1 ∨ j = 2 ∨ j = 3) then 1 else 0)) := by
  constructor <;> decide

/-- C3 counterexample: constructing on an empty (0×0) starting grid does not
fail — the constructor has no validation or raise path — and returns a
fully-initialized instance whose fields are exactly what the source
computes. -/
theorem empty_grid_constructs :
    (Conway.init emptyGrid true (1, 1, 1) (0, 0, 0)).start_field = emptyGrid ∧
    (Conway.init emptyGrid true (1, 1, 1) (0, 0, 0)).current_field = emptyGrid ∧
    (∀ i j, (Conway.init emptyGrid true (1, 1, 1) (0, 0, 0)).current_view i j = 0) :=
  ⟨rfl, rfl, fun _ _ => rfl⟩

/-- C3 amended: construction never fails; for every starting grid (empty ones
included) it returns a fully-initialized instance: the start field is stored,
`current_field` is a copy of it, the trail buffer is all zeros, and the mask
is the interior mask of the start grid's dimensions. -/
theorem init_total (start : Grid) (b : Bool) (f g : ℚ × ℚ × ℚ) :
    (Conway.init start b f g).start_field = start ∧
    (Conway.init start b f g).current_field = start ∧
    (∀ i j, (Conway.init start b f g).current_view i j = 0) ∧
    (∀ i j, (Conway.init start b f g).mask i j = standardMask start.rows start.cols i j) :=
  ⟨rfl, rfl, fun _ _ => rfl, fun _ _ => rfl⟩

/-- C8: `reset_field` leaves the trail buffer, the start field and the mask
unchanged; its only effect is overwriting `current_field` with a copy of
`start_field`. -/
theorem reset_field_frame (s : Conway) :
    s.reset_field.current_view = s.current_view ∧
    s.reset_field.start_field = s.start_field ∧
    s.reset_field.mask = s.mask ∧
    s.reset_field.current_field = s.start_field :=
  ⟨rfl, rfl, rfl, rfl⟩

/-- C7: `show_field` replaces the trail buffer with
`0.05 * old + 1 * current` elementwise and returns that buffer scaled by
`0xFF0000`; an alive cell with zero trail renders as exactly `0xFF0000`. -/
theorem show_field_trail (s : Conway) (i j : ℕ) :
    (s.show_field.1.current_view i j =
      (0.05 : ℚ) * s.current_view i j + 1 * (s.current_field.cell i j : ℚ)) ∧
    (s.show_field.2 i j = (0xFF0000 : ℚ) * s.show_field.1.current_view i j) ∧
    (s.current_field.cell i j = 1 → s.current_view i j = 0 →
      s.show_field.2 i j = (0xFF0000 : ℚ)) := by
  refine ⟨rfl, rfl, fun h1 h2 => ?_⟩
  simp [Conway.show_field, h1, h2]

/-- C7 witness: on the freshly constructed blinker instance, the center cell
is alive with zero trail and renders as exactly 0xFF0000. -/
theorem show_field_trail_witness :
    blinkerState.current_field.cell 2 2 = 1 ∧ blinkerState.current_view 2 2 = 0 ∧
    blinkerState.show_field.2 2 2 = (0xFF0000 : ℚ) :=
  ⟨by decide, rfl, (show_field_trail blinkerState 2 2).2.2 (by decide) rfl⟩

/-- C10: the `border` constructor flag — and likewise `fade` and
`gauss_sigma` — has no effect: any sequence of `update_field`/`show_field`
calls from instances built on the same start grid with different flag values
produces identical states and identical returned images. -/
theorem border_flag_no_effect (start : Grid) (b b2 : Bool) (f f2 g g2 : ℚ × ℚ × ℚ)
    (ops : List ConwayOp) :
    runOps (Conway.init start b f g) ops = runOps (Conway.init start b2 f2 g2) ops :=
  rfl

/-- C9: when the start grid has axis-0 length at most 2 or axis-1 length at
most 2, the interior mask is empty, so a single `update_field` call zeroes
every cell regardless of the initial values. -/
theorem small_grid_dies (start : Grid) (b : Bool) (f g : ℚ × ℚ × ℚ)
    (hdim : start.rows ≤ 2 ∨ start.cols ≤ 2) (i j : ℕ)
    (hi : i < start.rows) (hj : j < start.cols) :
    ((Conway.init start b f g).update_field).current_field.cell i j = 0 := by
  have hmask : standardMask start.rows start.cols i j = 0 := by
    unfold standardMask
    rw [if_neg]
    omega
  simp [Conway.init, Conway.update_field, update_field_fast_mask, hmask]

/-- C9 witness: a 2×5 all-alive grid is wiped to zero at cell (0,0) by one
update. -/
theorem small_grid_dies_witness :
    (flatGrid.rows ≤ 2 ∨ flatGrid.cols ≤ 2) ∧
    ((Conway.init flatGrid true (1, 1, 1) (0, 0, 0)).update_field).current_field.cell 0 0 = 0 :=
  ⟨by decide,
   small_grid_dies flatGrid true (1, 1, 1) (0, 0, 0) (by decide) 0 0 (by decide) (by decide)⟩

/-- C4: after every `update_field` call (the n-th step of any sequence of
calls, n ≥ 1) on a freshly constructed instance, every cell of the outermost
ring of `current_field` is 0. -/
theorem border_ring_dead (start : Grid) (b : Bool) (f g : ℚ × ℚ × ℚ) (n : ℕ)
    (hn : 1 ≤ n) (i j : ℕ) (hi : i < start.rows) (hj : j < start.cols)
    (hb : i = 0 ∨ i + 1 = start.rows ∨ j = 0 ∨ j + 1 = start.cols) :
    (Conway.update_field^[n] (Conway.init start b f g)).current_field.cell i j = 0 := by
  obtain ⟨m, rfl⟩ : ∃ m, n = m + 1 := ⟨n - 1, by omega⟩
  rw [Function.iterate_succ_apply']
  have hmask : (Conway.update_field^[m] (Conway.init start b f g)).mask i j = 0 := by
    rw [iterate_update_mask]
    show standardMask start.rows start.cols i j = 0
    unfold standardMask
    rw [if_neg]
    omega
  simp [Conway.update_field, update_field_fast_mask, hmask]

/-- C4 witness: one update on the all-alive 3×3 grid leaves cell (0,0) dead. -/
theorem border_ring_dead_witness :
    (Conway.update_field^[1] (Conway.init fullGrid3 true (1, 1, 1) (0, 0, 0))).current_field.cell 0 0 = 0 :=
  border_ring_dead fullGrid3 true (1, 1, 1) (0, 0, 0) 1 (by decide) 0 0
    (by decide) (by decide) (Or.inl rfl)

/-- C1: on a 0/1 grid, the direct method and the shifted-sum-plus-mask method
produce the same next-generation value at every cell strictly inside the
border. -/
theorem slow_fast_interior_agree (g : Grid) (hbin : g.binary) (i j : ℕ)
    (h1 : 1 ≤ i) (h2 : i + 1 < g.rows) (h3 : 1 ≤ j) (h4 : j + 1 < g.cols) :
    (update_field_slow g).cell i j = (update_field_fast g).cell i j := by
  have hn : livingNeighborsFast g i j = livingNeighborsSlow g i j := by
    rw [livingNeighborsFast_interior g i j h1 h2 h3 h4,
      livingNeighborsSlow_interior g i j h1 h2 h3 h4]
  have hmask : ¬ (standardMask g.rows g.cols i j = 0) := by
    unfold standardMask
    rw [if_pos ⟨h1, h2, h3, h4⟩]
    decide
  simp only [update_field_slow, update_field_fast, update_field_fast_mask, hn]
  rw [if_neg hmask]
  rcases hbin i (by omega) j (by omega) with h0 | hone
  · rw [h0]
    split_ifs <;> omega
  · rw [hone]
    split_ifs <;> omega

/-- C1 witness: on the all-alive 3×3 grid both methods agree at the interior
cell (1,1). -/
theorem slow_fast_interior_agree_witness :
    fullGrid3.binary ∧
    (update_field_slow fullGrid3).cell 1 1 = (update_field_fast fullGrid3).cell 1 1 :=
  ⟨by decide,
   slow_fast_interior_agree fullGrid3 (by decide) 1 1 (by decide) (by decide)
     (by decide) (by decide)⟩

/-- On a binary grid, accumulating in-bounds neighbor cell values over any
offset list equals the starting value plus the number of in-bounds offsets
whose cell is live. -/
lemma foldl_cells_eq_count (g : Grid) (hbin : g.binary) (i j : ℕ) :
    ∀ (l : List (ℤ × ℤ)) (a : ℤ),
      l.foldl (fun acc d =>
        if 0 ≤ (i : ℤ) + d.1 ∧ (i : ℤ) + d.1 < (g.rows : ℤ) ∧
            0 ≤ (j : ℤ) + d.2 ∧ (j : ℤ) + d.2 < (g.cols : ℤ) then
          acc + g.cell ((i : ℤ) + d.1).toNat ((j : ℤ) + d.2).toNat
        else acc) a
      = a + (((l.filter (fun d =>
          decide (0 ≤ (i : ℤ) + d.1 ∧ (i : ℤ) + d.1 < (g.rows : ℤ) ∧
            0 ≤ (j : ℤ) + d.2 ∧ (j : ℤ) + d.2 < (g.cols : ℤ) ∧
            g.cell ((i : ℤ) + d.1).toNat ((j : ℤ) + d.2).toNat = 1))).length : ℕ) : ℤ) := by
  intro l
  induction l with
  | nil => intro a; simp
  | cons d l ih =>
    intro a
    simp only [List.foldl_cons, List.filter_cons, decide_eq_true_eq]
    by_cases hB : 0 ≤ (i : ℤ) + d.1 ∧ (i : ℤ) + d.1 < (g.rows : ℤ) ∧
        0 ≤ (j : ℤ) + d.2 ∧ (j : ℤ) + d.2 < (g.cols : ℤ)
    · rw [if_pos hB]
      rcases hbin ((i : ℤ) + d.1).toNat (by omega) ((j : ℤ) + d.2).toNat (by omega) with
        h0 | hone
      · rw [h0, add_zero, ih,
          if_neg (fun hc => absurd hc.2.2.2.2 (by decide))]
      · rw [hone, ih,
          if_pos ⟨hB.1, hB.2.1, hB.2.2.1, hB.2.2.2, rfl⟩, List.length_cons]
        push_cast
        ring
    · rw [if_neg hB, ih,
        if_neg (fun hc => hB ⟨hc.1, hc.2.1, hc.2.2.1, hc.2.2.2.1⟩)]

/-- On a binary grid the neighbor count the slow update computes is exactly
the spec's live-neighbor count. -/
lemma livingNeighborsSlow_eq_spec (g : Grid) (hbin : g.binary) (i j : ℕ) :
    livingNeighborsSlow g i j = (specLiveNeighbors g i j : ℤ) := by
  rw [livingNeighborsSlow_flat, specLiveNeighbors,
    foldl_cells_eq_count g hbin i j adjacentOffsets 0, zero_add]

/-- C2: on a 0/1 grid, the slow (direct) update computes each cell's next
state from the pre-update grid by the spec's rule: with n the number of live
in-bounds adjacent cells, an alive cell dies when n < 2 or n > 3, a dead
cell becomes alive exactly when n = 3, and the state is unchanged
otherwise. -/
theorem slow_implements_rule (g : Grid) (hbin : g.binary) (i j : ℕ)
    (hi : i < g.rows) (hj : j < g.cols) :
    (update_field_slow g).cell i j =
      if g.cell i j = 1 then
        (if specLiveNeighbors g i j < 2 ∨ specLiveNeighbors g i j > 3 then 0 else 1)
      else
        (if specLiveNeighbors g i j = 3 then 1 else 0) := by
  have hn := livingNeighborsSlow_eq_spec g hbin i j
  simp only [update_field_slow]
  rw [hn]
  rcases hbin i hi j hj with h0 | hone
  · rw [h0]
    split_ifs <;> omega
  · rw [hone]
    split_ifs <;> omega

/-- A list of nonnegative integers sums to zero iff every entry is zero. -/
lemma sum_eq_zero_iff_of_nonneg (l : List ℤ) (h : ∀ x ∈ l, 0 ≤ x) :
    l.sum = 0 ↔ ∀ x ∈ l, x = 0 := by
  induction l with
  | nil => simp
  | cons a l ih =>
    have ha : 0 ≤ a := h a (List.mem_cons_self a l)
    have hl : ∀ x ∈ l, 0 ≤ x := fun x hx => h x (List.mem_cons_of_mem a hx)
    have hs : 0 ≤ l.sum := List.sum_nonneg hl
    simp only [List.sum_cons, List.mem_cons]
    constructor
    · intro h0
      have hsum : l.sum = 0 := by omega
      have hrest := (ih hl).mp hsum
      intro x hx
      rcases hx with rfl | hx
      · omega
      · exact hrest x hx
    · intro hz
      have ha0 : a = 0 := hz a (Or.inl rfl)
      have hsum : l.sum = 0 := (ih hl).mpr (fun x hx => hz x (Or.inr hx))
      omega

/-- C6: for a Field whose current grid holds only 0/1 values, `is_empty`
returns true iff every cell of the current grid is 0. -/
theorem is_empty_iff_all_dead (s : Conway) (hbin : s.current_field.binary) :
    s.is_empty = true ↔
      ∀ i < s.current_field.rows, ∀ j < s.current_field.cols,
        s.current_field.cell i j = 0 := by
  have hrow : ∀ i < s.current_field.rows,
      ∀ x ∈ (List.range s.current_field.cols).map (fun j => s.current_field.cell i j),
        0 ≤ x := by
    intro i hi x hx
    simp only [List.mem_map, List.mem_range] at hx
    obtain ⟨j, hj, rfl⟩ := hx
    rcases hbin i hi j hj with h | h <;> omega
  unfold Conway.is_empty gridSum
  rw [beq_iff_eq, sum_eq_zero_iff_of_nonneg]
  · constructor
    · intro h i hi j hj
      have hmem : ((List.range s.current_field.cols).map
            (fun j => s.current_field.cell i j)).sum ∈
          (List.range s.current_field.rows).map (fun i =>
            ((List.range s.current_field.cols).map
              (fun j => s.current_field.cell i j)).sum) := by
        simp only [List.mem_map, List.mem_range]
        exact ⟨i, hi, rfl⟩
      have hz := (sum_eq_zero_iff_of_nonneg _ (hrow i hi)).mp (h _ hmem)
      have hc : s.current_field.cell i j ∈ (List.range s.current_field.cols).map
          (fun j => s.current_field.cell i j) := by
        simp only [List.mem_map, List.mem_range]
        exact ⟨j, hj, rfl⟩
      exact hz _ hc
    · intro h x hx
      simp only [List.mem_map, List.mem_range] at hx
      obtain ⟨i, hi, rfl⟩ := hx
      apply List.sum_eq_zero
      intro y hy
      simp only [List.mem_map, List.mem_range] at hy
      obtain ⟨j, hj, rfl⟩ := hy
      exact h i hi j hj
  · intro x hx
    simp only [List.mem_map, List.mem_range] at hx
    obtain ⟨i, hi, rfl⟩ := hx
    exact List.sum_nonneg (hrow i hi)

/-- C6 witness: a freshly constructed instance on the 0×0 grid is empty. -/
theorem is_empty_iff_all_dead_witness :
    (Conway.init emptyGrid true (1, 1, 1) (0, 0, 0)).is_empty = true :=
  (is_empty_iff_all_dead (Conway.init emptyGrid true (1, 1, 1) (0, 0, 0))
    (by decide)).mpr (by decide)

/-- C2 witness: the rule characterization evaluated at cell (2,2) of the
blinker grid. -/
theorem slow_implements_rule_witness :
    (update_field_slow blinker5).cell 2 2 =
      if blinker5.cell 2 2 = 1 then
        (if specLiveNeighbors blinker5 2 2 < 2 ∨ specLiveNeighbors blinker5 2 2 > 3 then 0
         else 1)
      else
        (if specLiveNeighbors blinker5 2 2 = 3 then 1 else 0) :=
  slow_implements_rule blinker5 (by decide) 2 2 (by decide) (by decide)
